import Mathlib

/-!
Verification of the Hades2SaveManager snapshot engine.

This file gives a shallow embedding of the core of the repository
(`utils/time_helpers.py`, `utils/file_ops.py`,
`services/snapshot_manager.py`, `services/snapshot_watcher.py`) and
proves or refutes the frozen claims about it.

Modelling choices:
  - Python floats (timestamps, thresholds) are modelled as rationals.
  - File contents are byte lists; a flat directory is an association
    list from file name to content.
  - IO never fails in the model: copy/delete of an existing file
    succeeds.  Claims conditioned on success are stated with the
    success outcome as a hypothesis where the claim is conditional.
  - `datetime` values are civil date-times at one-second resolution.
-/

/-! ## Decimal printing (Python `str(int)` / zero-padded strftime fields) -/

/-- Decimal digit characters of a natural number, most significant first,
prepended to `acc`.  Embeds the decimal rendering used by Python's
number formatting.  The first argument is structural fuel, always
called with at least `n + 1`, which dominates the number of digits. -/
def natStrAux : Nat → Nat → List Char → List Char
  | 0, _, acc => acc
  | fuel + 1, n, acc =>
    let d : Char := Char.ofNat (48 + n % 10)
    if n < 10 then d :: acc else natStrAux fuel (n / 10) (d :: acc)

/-- Decimal digit characters of a natural number, most significant first. -/
def natStrDigits (n : Nat) : List Char :=
  natStrAux (n + 1) n []

/-- Decimal string of a natural number (Python `str(n)` for `n ≥ 0`). -/
def natStr (n : Nat) : String :=
  ⟨natStrDigits n⟩

/-- Zero-padded decimal characters of width `w` (strftime `%0w` fields). -/
def padChars (w n : Nat) : List Char :=
  List.replicate (w - (natStrDigits n).length) ('0') ++ natStrDigits n

/-- Numeric value of a digit-character list (Python `int(s)` on a digit string). -/
def digitsVal (cs : List Char) : Nat :=
  cs.foldl (fun a c => a * 10 + (c.toNat - 48)) 0

/-- Python `s.split(sep)` for a one-character separator, on character lists. -/
def splitOnChar (sep : Char) : List Char → List (List Char)
  | [] => [[]]
  | c :: cs =>
    let r := splitOnChar sep cs
    if c = sep then [] :: r
    else
      match r with
      | [] => [[c]]
      | p :: ps => (c :: p) :: ps

/-! ## Embedding of `utils/time_helpers.py` -/

/-- A civil date-time at second resolution (the `datetime` values the
source manipulates; Python sub-second precision is dropped by the
second-resolution folder naming scheme). -/
structure DateTime where
  year : Nat
  month : Nat
  day : Nat
  hour : Nat
  minute : Nat
  second : Nat
deriving DecidableEq

/-- Character list of the folder name produced by
`get_snapshot_folder_name`: `now.strftime("%Y-%m-%d_%H-%M-%S_profileN")`. -/
def folderNameChars (now : DateTime) (profile_num : Nat) : List Char :=
  padChars 4 now.year ++ ('-') :: padChars 2 now.month ++ ('-') :: padChars 2 now.day
    ++ ('_') :: padChars 2 now.hour ++ ('-') :: padChars 2 now.minute
    ++ ('-') :: padChars 2 now.second
    ++ ('_') :: (("profile").toList ++ natStrDigits profile_num)

/-- Embeds `get_snapshot_folder_name` (time_helpers.py lines 39-50); the
current time is passed explicitly. -/
def get_snapshot_folder_name (now : DateTime) (profile_num : Nat) : String :=
  ⟨folderNameChars now profile_num⟩

/-- Python `int(s)` on a string expected to hold an unsigned decimal
number: some value when `s` is a nonempty digit run, none (a raised
`ValueError`, caught by the caller) otherwise.  The sign-accepting part
of `int` is not exercised by the source's inputs. -/
def parsePyNat (cs : List Char) : Option Nat :=
  if cs.isEmpty then none
  else if cs.all Char.isDigit then some (digitsVal cs) else none

/-- Gregorian leap-year rule used by `datetime`. -/
def isLeapYear (y : Nat) : Bool :=
  (y % 4 = 0 && (y % 100 = 0 → y % 400 = 0) : Bool)

/-- Days in a month of a given year, as validated by `datetime`. -/
def daysInMonth (y m : Nat) : Nat :=
  if m = 2 then (if isLeapYear y then 29 else 28)
  else if m = 4 ∨ m = 6 ∨ m = 9 ∨ m = 11 then 30
  else 31

/-- Embeds `datetime.strptime(s, "%Y-%m-%d %H:%M:%S")`: a four-digit
year, one-or-two-digit month/day/hour/minute/second, with the calendar
validity checks `datetime` performs; invalid input raises (modelled as
none). -/
def strptimeYmdHms (s : String) : Option DateTime :=
  match splitOnChar (' ') s.toList with
  | [d, t] =>
    match splitOnChar ('-') d, splitOnChar (':') t with
    | [ys, ms, ds], [hs, mins, ss] =>
      if ys.length = 4 ∧ ms.length ≤ 2 ∧ ds.length ≤ 2 ∧ hs.length ≤ 2
          ∧ mins.length ≤ 2 ∧ ss.length ≤ 2 then
        match parsePyNat ys, parsePyNat ms, parsePyNat ds,
              parsePyNat hs, parsePyNat mins, parsePyNat ss with
        | some y, some mo, some da, some h, some mi, some se =>
          if 1 ≤ y ∧ y ≤ 9999 ∧ 1 ≤ mo ∧ mo ≤ 12 ∧ 1 ≤ da ∧ da ≤ daysInMonth y mo
              ∧ h ≤ 23 ∧ mi ≤ 59 ∧ se ≤ 59 then
            some ⟨y, mo, da, h, mi, se⟩
          else none
        | _, _, _, _, _, _ => none
      else none
    | _, _ => none
  | _ => none

/-- Result of `parse_snapshot_folder_name`: the dict
`{timestamp, profile, datetime}`; the timestamp is determined by the
date-time, which we keep directly. -/
structure ParsedFolder where
  profile : Nat
  dt : DateTime
deriving DecidableEq

/-- Embeds `parse_snapshot_folder_name` (time_helpers.py lines 53-91):
split on underscores, require at least four parts, require the third
part to start with "profile", parse its trailing digits, re-assemble a
date-time from the first two parts with the dashes of the time part
turned into colons. -/
def parse_snapshot_folder_name (folder_name : String) : Option ParsedFolder :=
  let parts := splitOnChar ('_') folder_name.toList
  if parts.length < 4 then none
  else
    match parts with
    | date_str :: time_str :: profile_str :: _ =>
      if (("profile").toList).isPrefixOf profile_str then
        match parsePyNat (profile_str.drop 7) with
        | none => none
        | some p =>
          let time2 := time_str.map (fun c => if c = ('-') then (':') else c)
          match strptimeYmdHms (⟨date_str ++ (' ') :: time2⟩) with
          | none => none
          | some dt => some ⟨p, dt⟩
      else none
    | _ => none

/-- Embeds `should_create_new_snapshot` (time_helpers.py lines 130-147);
the current time is passed explicitly. -/
def should_create_new_snapshot (last_snapshot_time : Option ℚ)
    (current_time threshold_seconds : ℚ) : Bool :=
  match last_snapshot_time with
  | none => true
  | some t => decide (current_time - t > threshold_seconds)

/-- Days from 0001-01-01 up to January 1 of year `y` (proleptic Gregorian). -/
def daysBeforeYear (y : Nat) : Nat :=
  365 * (y - 1) + (y - 1) / 4 - (y - 1) / 100 + (y - 1) / 400

/-- Days from January 1 of year `y` up to the first of month `m`. -/
def daysBeforeMonth (y m : Nat) : Nat :=
  (List.range (m - 1)).foldl (fun a i => a + daysInMonth y (i + 1)) 0

/-- Embeds `datetime.timestamp()` for the parsed folder date-times:
seconds since the Unix epoch of a civil date-time (the timezone offset
of the host, immaterial to the ordering the source relies on, is fixed
to zero). -/
def dtToSecs (dt : DateTime) : ℚ :=
  (((daysBeforeYear dt.year + daysBeforeMonth dt.year dt.month + (dt.day - 1) : Nat) : ℤ)
      - ((daysBeforeYear 1970 : Nat) : ℤ)) * 86400
    + dt.hour * 3600 + dt.minute * 60 + dt.second

/-! ## Embedding of `utils/file_ops.py`

A flat directory is an association list from file name to byte content;
`lookupFile` is reading a file, `setFile` is an overwriting write. -/

/-- Byte content of a file. -/
abbrev FileContent := List Nat

/-- A flat directory of named files. -/
abbrev Dir := List (String × FileContent)

/-- Content of the named file in a directory, none when absent. -/
def lookupFile : Dir → String → Option FileContent
  | [], _ => none
  | (m, b) :: rest, n => if m = n then some b else lookupFile rest n

/-- Write `c` to file `n`, overwriting an existing file of that name. -/
def setFile : Dir → String → FileContent → Dir
  | [], n, c => [(n, c)]
  | (m, b) :: rest, n, c =>
    if m = n then (n, c) :: rest else (m, b) :: setFile rest n c

/-- Embeds `safe_copy_files` (file_ops.py lines 36-56): copy each source
file into the destination directory under its base name, returning the
number of files copied together with the updated directory.  Sources are
given with their contents, so every copy succeeds in the model. -/
def safe_copy_files : List (String × FileContent) → Dir → Nat × Dir
  | [], dst_dir => (0, dst_dir)
  | f :: fs, dst_dir =>
    let r := safe_copy_files fs (setFile dst_dir f.1 f.2)
    (r.1 + 1, r.2)

/-- Embeds `safe_delete_directory` (file_ops.py lines 80-98) over a
model filesystem listing the existing directories: recursive delete of
the directory and everything below it when it exists, and a `false`
result leaving the filesystem unchanged when it does not. -/
def safe_delete_directory (dirs : List String) (dir_path : String) : Bool × List String :=
  if dir_path ∈ dirs then
    (true, dirs.filter (fun x =>
      if x = dir_path ∨ ((dir_path ++ ("/")).toList).isPrefixOf x.toList then false else true))
  else (false, dirs)

/-- Name of the main save file of a profile: `Profile{N}.sav`. -/
def mainSaveName (p : Nat) : String :=
  ("Profile") ++ natStr p ++ (".sav")

/-- Name of the temp save file of a profile: `Profile{N}_Temp.sav`. -/
def tempSaveName (p : Nat) : String :=
  ("Profile") ++ natStr p ++ ("_Temp.sav")

/-- Stem of the backup-file glob of a profile: `Profile{N}.sav.bak`. -/
def bakPat (p : Nat) : String :=
  ("Profile") ++ natStr p ++ (".sav.bak")

/-- Embeds `find_profile_files` (file_ops.py lines 158-191): the main
save file if present, then the temp save file if present, then every
file matching the glob `Profile{N}.sav.bak*`, with their contents. -/
def find_profile_files (save_dir : Dir) (profile_num : Nat) : List (String × FileContent) :=
  (match lookupFile save_dir (mainSaveName profile_num) with
   | some b => [(mainSaveName profile_num, b)]
   | none => []) ++
  (match lookupFile save_dir (tempSaveName profile_num) with
   | some b => [(tempSaveName profile_num, b)]
   | none => []) ++
  save_dir.filter (fun f => ((bakPat profile_num).toList).isPrefixOf f.1.toList)

/-- Index of the last '.' in a character list, if any (Python `rfind`). -/
def lastDotIdx : List Char → Option Nat
  | [] => none
  | c :: cs =>
    match lastDotIdx cs with
    | some i => some (i + 1)
    | none => if c = ('.') then some 0 else none

/-- Embeds Python `Path(name).suffix`: the final extension including the
dot, empty when the last dot is at position 0, absent, or the final
character. -/
def pathSuffix (name : String) : String :=
  let cs := name.toList
  match lastDotIdx cs with
  | none => ("")
  | some i => if 0 < i ∧ i + 1 < cs.length then ⟨cs.drop i⟩ else ("")

/-- Embeds `extract_profile_number` (file_ops.py lines 194-223): a
filename starting with "Profile", followed by a digit run whose value
lies in 1..4, yields that value; everything else yields none. -/
def extract_profile_number (file_name : String) : Option Nat :=
  let cs := file_name.toList
  if (("Profile").toList).isPrefixOf cs then
    let num_str := (cs.drop 7).takeWhile Char.isDigit
    if num_str.isEmpty then none
    else
      let profile_num := digitsVal num_str
      if 1 ≤ profile_num ∧ profile_num ≤ 4 then some profile_num else none
  else none

/-! ## Embedding of `services/snapshot_manager.py` -/

/-- The metadata record written to `metadata.json` by `create_snapshot`. -/
structure SnapMeta where
  profile : Nat
  timestamp : ℚ
  files_copied : Nat
  has_screenshot : Bool
deriving DecidableEq

/-- One child directory of a profile's snapshot directory: its folder
name, its save files, the optional metadata record, and whether a
`snapshot.png` exists. -/
structure SnapFolder where
  name : String
  files : Dir
  metadata : Option SnapMeta
  hasPng : Bool
deriving DecidableEq

/-- The `Snapshot` dataclass (snapshot_manager.py lines 25-53); `path`
is the folder name relative to the profile's snapshot directory. -/
structure Snapshot where
  path : String
  profile : Nat
  timestamp : ℚ
  size : Nat
  has_screenshot : Bool
deriving DecidableEq

/-- The state a `SnapshotManager` instance owns: the live save
directory, the snapshot catalog (children of `snapshot_dir/Profile{p}`
for each profile), and the in-memory per-profile last-snapshot-time
map. -/
structure MgrState where
  save_dir : Dir
  catalog : Nat → List SnapFolder
  last_snapshot_time : Nat → Option ℚ

/-- Embeds `SnapshotManager.__init__` (snapshot_manager.py lines 59-75):
the last-snapshot-time map starts empty; the on-disk catalog is taken
as given and `__init__` does not read it. -/
def SnapshotManager_init (save_dir : Dir) (catalog : Nat → List SnapFolder) : MgrState :=
  { save_dir := save_dir, catalog := catalog, last_snapshot_time := fun _ => none }

/-- Embeds `SnapshotManager.get_last_snapshot_time` (lines 317-327). -/
def get_last_snapshot_time (st : MgrState) (profile_num : Nat) : Option ℚ :=
  st.last_snapshot_time profile_num

/-- Embeds `get_directory_size` for a snapshot folder: total bytes of
the save files it holds. -/
def folderSize (f : SnapFolder) : Nat :=
  f.files.foldl (fun a g => a + g.2.length) 0

/-- One iteration of the `list_snapshots` scan: build a `Snapshot` from
a child folder, from its metadata when present, else from its parsed
folder name and a probe for `snapshot.png`; folders matching neither
are skipped. -/
def buildSnapshot (f : SnapFolder) : Option Snapshot :=
  match f.metadata with
  | some m => some ⟨f.name, m.profile, m.timestamp, folderSize f, m.has_screenshot⟩
  | none =>
    match parse_snapshot_folder_name f.name with
    | some r => some ⟨f.name, r.profile, dtToSecs r.dt, folderSize f, f.hasPng⟩
    | none => none

/-- The snapshots recognized among a profile directory's children. -/
def buildSnapshots (folders : List SnapFolder) : List Snapshot :=
  folders.filterMap buildSnapshot

/-- Insert into a list sorted by timestamp descending, keeping the
inserted element before later elements of equal timestamp (the
stability Python's sort guarantees). -/
def insertDesc (s : Snapshot) : List Snapshot → List Snapshot
  | [] => [s]
  | t :: ts => if t.timestamp ≤ s.timestamp then s :: t :: ts else t :: insertDesc s ts

/-- Embeds `snapshots.sort(key=..., reverse=True)`: stable sort by
timestamp, newest first. -/
def sortByTimestampDesc (l : List Snapshot) : List Snapshot :=
  l.foldr insertDesc []

/-- Profile directories `list_snapshots` scans for a given argument. -/
def profileDirsFor : Option Nat → List Nat
  | some p => [p]
  | none => [1, 2, 3, 4]

/-- Embeds `SnapshotManager.list_snapshots` (lines 164-229). -/
def list_snapshots (st : MgrState) (profile_num : Option Nat) : List Snapshot :=
  sortByTimestampDesc
    (((profileDirsFor profile_num).map (fun p => buildSnapshots (st.catalog p))).flatten)

/-- Replace the first folder of the given name, appending when the name
is absent (`mkdir(exist_ok=True)` plus the subsequent writes). -/
def upsertFolder : List SnapFolder → String → SnapFolder → List SnapFolder
  | [], _, nf => [nf]
  | f :: fs, target, nf =>
    if f.name = target then nf :: fs else f :: upsertFolder fs target nf

/-- The contents of the target folder at the start of `create_snapshot`:
the existing folder of that name, or a fresh empty one. -/
def findFolder (folders : List SnapFolder) (target : String) : SnapFolder :=
  match folders.find? (fun f => f.name == target) with
  | some f => f
  | none => ⟨target, [], none, false⟩

/-- Embeds `SnapshotManager.create_snapshot` (lines 77-162).  The two
wall-clock reads are passed explicitly: `now` feeds the new folder name,
`nowTs` feeds the metadata timestamp; `screenshotOk` is the outcome of
the screenshot capture attempt. -/
def create_snapshot (st : MgrState) (profile_num : Nat)
    (take_screenshot overwrite_last : Bool) (now : DateTime) (nowTs : ℚ)
    (screenshotOk : Bool) : Option Snapshot × MgrState :=
  let save_files := find_profile_files st.save_dir profile_num
  if save_files.isEmpty then (none, st)
  else
    let target :=
      if overwrite_last then
        match (list_snapshots st (some profile_num)).head? with
        | some s0 => s0.path
        | none => get_snapshot_folder_name now profile_num
      else get_snapshot_folder_name now profile_num
    let folder0 := findFolder (st.catalog profile_num) target
    let copied := (safe_copy_files save_files folder0.files).1
    if copied = 0 then (none, st)
    else
      let has_screenshot := take_screenshot && screenshotOk
      let folder1 : SnapFolder :=
        { name := target,
          files := (safe_copy_files save_files folder0.files).2,
          metadata := some ⟨profile_num, nowTs, copied, has_screenshot⟩,
          hasPng := if has_screenshot then true else folder0.hasPng }
      let st' : MgrState :=
        { save_dir := st.save_dir,
          catalog := fun q =>
            if q = profile_num then upsertFolder (st.catalog profile_num) target folder1
            else st.catalog q,
          last_snapshot_time := fun q =>
            if q = profile_num then some nowTs else st.last_snapshot_time q }
      (some ⟨target, profile_num, nowTs, folderSize folder1, has_screenshot⟩, st')

/-- The save-file filter `restore_snapshot` applies to the entries of a
snapshot folder: final extension exactly `.sav` or `.bak`, or a name
ending in `_Temp.sav` (lines 295-297). -/
def isRestoreSave (name : String) : Bool :=
  pathSuffix name = (".sav") || pathSuffix name = (".bak")
    || (("_Temp.sav").toList).isSuffixOf name.toList

/-- The part of the live state `restore_snapshot` touches: the live save
directory and the rolling live-backup folder of the snapshot's profile. -/
structure LiveState where
  save_dir : Dir
  live_backup : Dir
deriving DecidableEq

/-- The backup step of `restore_snapshot` (lines 277-291): when
requested and the save directory currently holds files of the profile,
clear the live-backup folder's files and copy the current files in;
otherwise leave everything untouched. -/
def restore_backup_step (profile_num : Nat) (backup_current : Bool)
    (st : LiveState) : LiveState :=
  if backup_current then
    if (find_profile_files st.save_dir profile_num).isEmpty then st
    else { st with
      live_backup := (safe_copy_files (find_profile_files st.save_dir profile_num) []).2 }
  else st

/-- Embeds `SnapshotManager.restore_snapshot` (lines 263-315), given the
snapshot folder's entries and the snapshot's profile. -/
def restore_snapshot (snapDir : Dir) (profile_num : Nat) (backup_current : Bool)
    (st : LiveState) : Bool × LiveState :=
  let st1 := restore_backup_step profile_num backup_current st
  let snapshot_files := snapDir.filter (fun f => isRestoreSave f.1)
  if snapshot_files.isEmpty then (false, st1)
  else if (safe_copy_files snapshot_files st1.save_dir).1 = 0 then (false, st1)
  else (true, { st1 with save_dir := (safe_copy_files snapshot_files st1.save_dir).2 })

/-! ## Embedding of `services/snapshot_watcher.py` -/

/-- The two accepted filesystem event kinds. -/
inductive EType where
  | created
  | modified
deriving DecidableEq

/-- An accepted filesystem event: kind, detected profile, wall-clock
timestamp at arrival. -/
structure HEvent where
  etype : EType
  profile : Nat
  time : ℚ
deriving DecidableEq

/-- One callback invocation of `SaveFileEventHandler` (lines 39-96) on
an accepted event: the updated per-profile last-event-time map, and
whether the event was enqueued.  Modified events pass through the
producer-side debounce and update the map; created events are enqueued
unconditionally and leave the map untouched. -/
def handlerStep (st : Nat → Option ℚ) (th : ℚ) (e : HEvent) : (Nat → Option ℚ) × Bool :=
  match e.etype with
  | EType.created => (st, true)
  | EType.modified =>
    if should_create_new_snapshot (st e.profile) e.time th then
      (fun q => if q = e.profile then some e.time else st q, true)
    else (st, false)

/-- Run the event handler over a sequence of accepted events, returning
the final last-event-time map and each event paired with its enqueue
decision, in order. -/
def runH (th : ℚ) (st : Nat → Option ℚ) : List HEvent → (Nat → Option ℚ) × List (HEvent × Bool)
  | [] => (st, [])
  | e :: es =>
    let s := handlerStep st th e
    let r := runH th s.1 es
    (r.1, (e, s.2) :: r.2)

/-- Timestamp of the last enqueued file-modified event for a profile in
a decision trace, continuing from `acc`. -/
def lastEnqModFrom (acc : Option ℚ) (out : List (HEvent × Bool)) (p : Nat) : Option ℚ :=
  out.foldl (fun a eb =>
    if eb.2 = true ∧ eb.1.etype = EType.modified ∧ eb.1.profile = p
    then some eb.1.time else a) acc

/-- Timestamp of the last enqueued file-modified event for a profile in
a decision trace. -/
def lastEnqMod (out : List (HEvent × Bool)) (p : Nat) : Option ℚ :=
  lastEnqModFrom none out p

/-- Timestamp of the last enqueued event of any kind for a profile in a
decision trace. -/
def lastEnqAny (out : List (HEvent × Bool)) (p : Nat) : Option ℚ :=
  out.foldl (fun a eb =>
    if eb.2 = true ∧ eb.1.profile = p then some eb.1.time else a) none

/-- The enqueue decision the handler takes for event `e` arriving after
the accepted events `hist`, starting from the empty per-profile map a
fresh handler holds. -/
def enqDecision (th : ℚ) (hist : List HEvent) (e : HEvent) : Bool :=
  (handlerStep ((runH th (fun _ => none) hist).1) th e).2

/-- Number of events enqueued over a run from a fresh handler. -/
def countEnqueued (th : ℚ) (es : List HEvent) : Nat :=
  (((runH th (fun _ => none) es).2).filter (fun eb => eb.2)).length

/-- The per-event decision of the consumer loop `_process_events`
(snapshot_watcher.py lines 236-260): none when the watcher is disabled
(event drained and dropped); otherwise the `overwrite_last` flag passed
to `create_snapshot`, true exactly when a last-snapshot-time is
recorded and the event's timestamp is within the threshold of it. -/
def process_event_decision (enabled : Bool) (last_time : Option ℚ)
    (event_ts threshold : ℚ) : Option Bool :=
  if enabled = false then none
  else
    match last_time with
    | none => some false
    | some t => some (if event_ts - t ≤ threshold then true else false)

/-! ## Claim-side predicates and concrete fixtures -/

/-- The pattern the specification describes for `extract_profile_number`:
the name is the literal "Profile", then a nonempty digit run, then
either the end of the string or a non-digit, and the digit run's value
is `n` with `1 ≤ n ≤ 4`. -/
def matchesProfilePattern (file_name : String) (n : Nat) : Prop :=
  ∃ ds rest, file_name.toList = (("Profile").toList) ++ ds ++ rest ∧ ds ≠ [] ∧
    (∀ c ∈ ds, c.isDigit = true) ∧ (∀ c, rest.head? = some c → c.isDigit = false) ∧
    digitsVal ds = n ∧ 1 ≤ n ∧ n ≤ 4

/-- Name of the first numbered backup file of a profile:
`Profile{N}.sav.bak2`. -/
def bakName2 (p : Nat) : String :=
  bakPat p ++ ("2")

/-- Example filename with profile digit 3. -/
def fileP3 : String := "Profile3.sav"

/-- Example filename with out-of-range profile digit 5. -/
def fileP5 : String := "Profile5.sav"

/-- Example filename that does not start with "Profile". -/
def fileReadme : String := "readme.txt"

/-- Example accepted event: file-modified, profile 1, t = 0. -/
def evMod0 : HEvent := ⟨EType.modified, 1, 0⟩

/-- Example accepted event: file-modified, profile 1, t = 2. -/
def evMod2 : HEvent := ⟨EType.modified, 1, 2⟩

/-- Example accepted event: file-modified, profile 1, t = 6. -/
def evMod6 : HEvent := ⟨EType.modified, 1, 6⟩

/-- Example accepted event: file-created, profile 1, t = 0. -/
def evCre0 : HEvent := ⟨EType.created, 1, 0⟩

/-- Example snapshot folder contents for the restore scenario: the
profile-2 save file plus the metadata file. -/
def exSnapDir4 : Dir :=
  [(mainSaveName 2, [1, 2, 3]), (("metadata.json"), [9])]

/-- Example pre-restore live state for the restore scenario: the live
save directory holds a different `Profile2.sav`, and the live-backup
folder holds leftovers of an earlier restore. -/
def exSt4 : LiveState :=
  { save_dir := [(mainSaveName 2, [7, 7])],
    live_backup := [(mainSaveName 2, [5])] }

/-- Example on-disk catalog holding one profile-1 snapshot recorded at
timestamp 100. -/
def exCatalog5 : Nat → List SnapFolder :=
  fun q =>
    if q = 1 then
      [⟨("2024-01-01_00-00-00_profile1"), [(mainSaveName 1, [1])],
        some ⟨1, 100, 1, false⟩, false⟩]
    else []

/-- A manager freshly constructed over that catalog. -/
def exMgr5 : MgrState :=
  SnapshotManager_init [] exCatalog5

/-- Example save directory holding a numbered backup file of profile 2. -/
def exDir8 : Dir :=
  [(mainSaveName 2, [1]), (bakName2 2, [4, 4])]

/-- Example snapshot folder holding a captured numbered backup next to
the main save file. -/
def exSnapDir8 : Dir :=
  [(mainSaveName 2, [1]), (bakName2 2, [4, 4])]

/-- Example live state for the capture/restore asymmetry scenario. -/
def exSt8 : LiveState :=
  { save_dir := [(mainSaveName 2, [9]), (bakName2 2, [8])], live_backup := [] }

/-- Example snapshot folder for the stale-backup scenario. -/
def exSnapDir9 : Dir :=
  [(mainSaveName 1, [3])]

/-- Example live state whose save directory holds nothing for profile 1
while the live-backup folder still holds an earlier restore's backup. -/
def exSt9 : LiveState :=
  { save_dir := [], live_backup := [(mainSaveName 1, [5, 5])] }

/-- Example prior snapshot folder for the overwrite scenario, recorded
at timestamp 50. -/
def exOld10 : SnapFolder :=
  ⟨("2024-01-01_00-00-00_profile1"), [(mainSaveName 1, [1])], some ⟨1, 50, 1, false⟩, false⟩

/-- Example manager state for the overwrite scenario. -/
def exMgr10 : MgrState :=
  { save_dir := [(mainSaveName 1, [2, 2])],
    catalog := fun q => if q = 1 then [exOld10] else [],
    last_snapshot_time := fun q => if q = 1 then some 50 else none }

/-- The snapshot `list_snapshots` reports for that prior folder. -/
def exSnap0 : Snapshot :=
  ⟨exOld10.name, 1, 50, 1, false⟩

/-- Example wall-clock date-time for the overwrite scenario. -/
def exDT10 : DateTime :=
  ⟨2024, 1, 1, 0, 1, 0⟩

/-! ## Helper lemmas -/

theorem splitOnChar_ne_nil (sep : Char) : ∀ cs : List Char, splitOnChar sep cs ≠ [] := by
  intro cs
  induction cs with
  | nil => simp [splitOnChar]
  | cons c cs ih =>
    simp only [splitOnChar]
    split
    · simp
    · split <;> simp

theorem splitOnChar_length (sep : Char) : ∀ cs : List Char,
    (splitOnChar sep cs).length = cs.count sep + 1 := by
  intro cs
  induction cs with
  | nil => simp [splitOnChar]
  | cons c cs ih =>
    by_cases h : c = sep
    · subst h
      simp [splitOnChar, List.count_cons, ih]
    · rcases hr : splitOnChar sep cs with _ | ⟨q, qs⟩
      · exact absurd hr (splitOnChar_ne_nil sep cs)
      · rw [hr] at ih
        simp only [List.length_cons] at ih
        simp only [splitOnChar, if_neg h, hr, List.length_cons, List.count_cons]
        simp [ih, h]

theorem natStrAux_count (c : Char) (hc : ∀ k, k < 10 → Char.ofNat (48 + k) ≠ c) :
    ∀ (fuel n : Nat) (acc : List Char), (natStrAux fuel n acc).count c = acc.count c := by
  intro fuel
  induction fuel with
  | zero => intro n acc; rfl
  | succ fuel ih =>
    intro n acc
    by_cases h : n < 10
    · simp only [natStrAux, if_pos h, List.count_cons]
      simp [hc (n % 10) (Nat.mod_lt _ (by omega))]
    · simp only [natStrAux, if_neg h]
      rw [ih]
      simp [List.count_cons, hc (n % 10) (Nat.mod_lt _ (by omega))]

theorem padChars_count_underscore (w n : Nat) : (padChars w n).count ('_') = 0 := by
  have hc : ∀ k, k < 10 → Char.ofNat (48 + k) ≠ ('_') := by
    intro k hk
    interval_cases k <;> decide
  unfold padChars natStrDigits
  rw [List.count_append, natStrAux_count _ hc, List.count_replicate]
  simp

theorem folderNameChars_count (now : DateTime) (p : Nat) :
    (folderNameChars now p).count ('_') = 2 := by
  have hc : ∀ k, k < 10 → Char.ofNat (48 + k) ≠ ('_') := by
    intro k hk
    interval_cases k <;> decide
  have h2 : List.count ('_') (natStrDigits p) = 0 := by
    unfold natStrDigits
    rw [natStrAux_count _ hc]
    rfl
  unfold folderNameChars
  simp [List.count_append, List.count_cons, padChars_count_underscore, h2]

theorem mem_takeWhile_pred {p : Char → Bool} :
    ∀ (l : List Char) (c : Char), c ∈ l.takeWhile p → p c = true := by
  intro l
  induction l with
  | nil => intro c h; simp [List.takeWhile] at h
  | cons a l ih =>
    intro c h
    rw [List.takeWhile_cons] at h
    by_cases hp : p a
    · rw [if_pos hp] at h
      rcases List.mem_cons.mp h with h1 | h1
      · exact h1 ▸ hp
      · exact ih c h1
    · rw [if_neg hp] at h
      simp at h

theorem head?_dropWhile_not {p : Char → Bool} :
    ∀ (l : List Char) (c : Char), (l.dropWhile p).head? = some c → p c = false := by
  intro l
  induction l with
  | nil => intro c h; simp [List.dropWhile] at h
  | cons a l ih =>
    intro c h
    rw [List.dropWhile_cons] at h
    by_cases hp : p a
    · rw [if_pos hp] at h
      exact ih c h
    · rw [if_neg hp] at h
      have : a = c := by simpa using h
      subst this
      exact Bool.not_eq_true _ ▸ by simpa using hp

theorem takeWhile_append_of {p : Char → Bool} :
    ∀ (ds rest : List Char), (∀ c ∈ ds, p c = true) →
      (∀ c, rest.head? = some c → p c = false) →
      (ds ++ rest).takeWhile p = ds ∧ (ds ++ rest).dropWhile p = rest := by
  intro ds
  induction ds with
  | nil =>
    intro rest _ hrest
    cases rest with
    | nil => simp
    | cons r rs =>
      have hr := hrest r rfl
      simp [List.takeWhile_cons, List.dropWhile_cons, hr]
  | cons d ds ih =>
    intro rest hds hrest
    have hd : p d = true := hds d (by simp)
    have hih := ih rest (fun c hc => hds c (by simp [hc])) hrest
    simp [List.takeWhile_cons, List.dropWhile_cons, hd, hih.1, hih.2]

theorem lookupFile_setFile_self : ∀ (d : Dir) (n : String) (c : FileContent),
    lookupFile (setFile d n c) n = some c := by
  intro d
  induction d with
  | nil => intro n c; simp [setFile, lookupFile]
  | cons f d ih =>
    intro n c
    rcases f with ⟨m, b⟩
    by_cases h : m = n
    · simp [setFile, lookupFile, h]
    · simp [setFile, lookupFile, h, ih]

theorem lookupFile_setFile_ne : ∀ (d : Dir) (n m : String) (c : FileContent),
    m ≠ n → lookupFile (setFile d n c) m = lookupFile d m := by
  intro d
  induction d with
  | nil =>
    intro n m c h
    have hnm : ¬ n = m := fun hh => h hh.symm
    simp [setFile, lookupFile, hnm]
  | cons f d ih =>
    intro n m c h
    rcases f with ⟨k, b⟩
    by_cases hk : k = n
    · subst hk
      have hnm : ¬ k = m := fun hh => h hh.symm
      simp [setFile, lookupFile, hnm]
    · by_cases hm : k = m
      · subst hm
        simp [setFile, lookupFile, hk]
      · simp [setFile, lookupFile, hk, hm, ih _ _ _ h]

theorem safe_copy_files_count : ∀ (fs : List (String × FileContent)) (d : Dir),
    (safe_copy_files fs d).1 = fs.length := by
  intro fs
  induction fs with
  | nil => intro d; rfl
  | cons f fs ih =>
    intro d
    simp [safe_copy_files, ih]

theorem lookupFile_copy_not_mem : ∀ (fs : List (String × FileContent)) (d : Dir) (n : String),
    n ∉ fs.map Prod.fst → lookupFile (safe_copy_files fs d).2 n = lookupFile d n := by
  intro fs
  induction fs with
  | nil => intro d n _; rfl
  | cons f fs ih =>
    intro d n h
    simp only [List.map_cons, List.mem_cons] at h
    push_neg at h
    simp only [safe_copy_files]
    rw [ih _ _ h.2, lookupFile_setFile_ne _ _ _ _ h.1]

theorem lookupFile_copy_mem : ∀ (fs : List (String × FileContent)) (d : Dir)
    (n : String) (c : FileContent), (fs.map Prod.fst).Nodup → (n, c) ∈ fs →
    lookupFile (safe_copy_files fs d).2 n = some c := by
  intro fs
  induction fs with
  | nil => intro d n c _ h; simp at h
  | cons f fs ih =>
    intro d n c hnd hmem
    simp only [List.map_cons, List.nodup_cons] at hnd
    rcases List.mem_cons.mp hmem with h1 | h1
    · subst h1
      simp only [safe_copy_files]
      rw [lookupFile_copy_not_mem _ _ _ hnd.1, lookupFile_setFile_self]
    · simp only [safe_copy_files]
      exact ih _ _ _ hnd.2 h1

theorem lookupFile_mem : ∀ (d : Dir) (n : String) (c : FileContent),
    lookupFile d n = some c → (n, c) ∈ d := by
  intro d
  induction d with
  | nil => intro n c h; simp [lookupFile] at h
  | cons f d ih =>
    intro n c h
    rcases f with ⟨m, b⟩
    by_cases hm : m = n
    · subst hm
      simp only [lookupFile, if_pos rfl] at h
      simp [Option.some.inj h]
    · simp only [lookupFile, if_neg hm] at h
      exact List.mem_cons_of_mem _ (ih _ _ h)

/-! ## Claim theorems -/

/-- C1: the claim states that `parse_snapshot_folder_name` applied to
any folder name the codec generates returns the encoded profile and
second-truncated timestamp.  The code contradicts its own documented
format: a generated name `YYYY-MM-DD_HH-MM-SS_profileN` splits on `_`
into exactly three parts, and the parser rejects anything with fewer
than four, so the round-trip yields none for every profile and every
time. -/
theorem C1_roundtrip_always_none (now : DateTime) (p : Nat) :
    parse_snapshot_folder_name (get_snapshot_folder_name now p) = none := by
  have hlen : (splitOnChar ('_') (folderNameChars now p)).length = 3 := by
    rw [splitOnChar_length, folderNameChars_count]
  have hx : (get_snapshot_folder_name now p).toList = folderNameChars now p := rfl
  simp only [parse_snapshot_folder_name, hx]
  rw [if_pos (by rw [hlen]; omega)]

/-- C2: the consumer loop, with the watcher enabled, asks the manager
for the profile's last snapshot time and invokes `create_snapshot` with
`overwrite_last = true` exactly when a time is recorded and the event
timestamp is within the threshold of it, and with `overwrite_last =
false` when the gap exceeds the threshold or no time is recorded; in
particular with last time 100 and threshold 5, an event at 103 yields
true and an event at 110 yields false. -/
theorem C2_consumer_overwrite_decision :
    (∀ (tl ts th : ℚ), process_event_decision true (some tl) ts th
        = some (if ts - tl ≤ th then true else false))
  ∧ (∀ (ts th : ℚ), process_event_decision true none ts th = some false)
  ∧ process_event_decision true (some 100) 103 5 = some true
  ∧ process_event_decision true (some 100) 110 5 = some false := by
  refine ⟨fun tl ts th => rfl, fun ts th => rfl, ?_, ?_⟩
  · norm_num [process_event_decision]
  · norm_num [process_event_decision]

/-- C5 counterexample: a freshly constructed manager over a catalog
whose profile-1 directory holds a snapshot recorded at timestamp 100:
`list_snapshots` reports that snapshot as the most recent, yet
`get_last_snapshot_time` returns none, not its timestamp, because
`__init__` leaves the map empty and never reads the store. -/
theorem C5_counterexample :
    (list_snapshots exMgr5 (some 1)).head?.map Snapshot.timestamp = some 100 ∧
    get_last_snapshot_time exMgr5 1 ≠ some 100 :=
  ⟨by decide, by decide⟩

/-- C5 amended: immediately after construction the per-profile
last-snapshot-time map is empty — `get_last_snapshot_time` returns none
for every profile, whatever the on-disk catalog holds; it is first
populated by a `create_snapshot` call in the new process. -/
theorem C5_last_snapshot_time_empty_at_startup (save_dir : Dir)
    (catalog : Nat → List SnapFolder) (p : Nat) :
    get_last_snapshot_time (SnapshotManager_init save_dir catalog) p = none :=
  rfl

/-- C6 counterexample: deleting a directory that does not exist returns
`false`, not the success the claim states. -/
theorem C6_counterexample :
    ¬ ((safe_delete_directory ([] : List String) ("missing")).1 = true) := by
  decide

/-- C6 amended: recursive delete of a directory that does not exist
raises no error but reports failure (`false`) and leaves the filesystem
unchanged. -/
theorem C6_delete_missing_directory (dirs : List String) (d : String)
    (h : d ∉ dirs) :
    safe_delete_directory dirs d = (false, dirs) := by
  simp [safe_delete_directory, h]

/-- C6 witness: the amended claim at the empty filesystem. -/
theorem C6_witness :
    safe_delete_directory ([] : List String) ("missing") = (false, []) :=
  C6_delete_missing_directory [] ("missing") (by decide)

/-- C7: `extract_profile_number` returns some `n` exactly when the
filename is the literal "Profile", then a nonempty digit run whose
value is `n` in 1..4, then the end of the string or a non-digit; and on
the spec's examples it returns 3, none, none. -/
theorem C7_extract_profile_number :
    (∀ (s : String) (n : Nat),
        extract_profile_number s = some n ↔ matchesProfilePattern s n)
  ∧ extract_profile_number fileP3 = some 3
  ∧ extract_profile_number fileP5 = none
  ∧ extract_profile_number fileReadme = none := by
  refine ⟨?_, by decide, by decide, by decide⟩
  intro s n
  constructor
  · intro h
    simp only [extract_profile_number] at h
    split_ifs at h with h1 h2 h3
    · obtain ⟨t, ht⟩ := List.isPrefixOf_iff_prefix.mp h1
      have h7 : (("Profile").toList).length = 7 := rfl
      have hdrop : s.toList.drop 7 = t := by
        rw [← ht, ← h7, List.drop_left]
      refine ⟨(s.toList.drop 7).takeWhile Char.isDigit,
              (s.toList.drop 7).dropWhile Char.isDigit, ?_, ?_, ?_, ?_, ?_, ?_, ?_⟩
      · rw [List.append_assoc, List.takeWhile_append_dropWhile, hdrop, ht]
      · intro hnil
        exact h2 (by rw [hnil]; rfl)
      · intro c hc
        exact mem_takeWhile_pred _ c hc
      · intro c hc
        exact head?_dropWhile_not _ c hc
      · exact Option.some.inj h
      · exact (Option.some.inj h) ▸ h3.1
      · exact (Option.some.inj h) ▸ h3.2
  · rintro ⟨ds, rest, hcs, hne, hdig, hrest, hval, h1n, h4n⟩
    have hpre : (("Profile").toList).isPrefixOf s.toList = true :=
      List.isPrefixOf_iff_prefix.mpr
        ⟨ds ++ rest, by rw [hcs, List.append_assoc]⟩
    have h7 : (("Profile").toList).length = 7 := rfl
    have hdrop : s.toList.drop 7 = ds ++ rest := by
      rw [hcs, List.append_assoc, ← h7, List.drop_left]
    have htw := takeWhile_append_of ds rest hdig hrest
    have hie : ds.isEmpty = false := by
      cases ds with
      | nil => exact absurd rfl hne
      | cons a l => rfl
    simp only [extract_profile_number, hpre, if_true, hdrop, htw.1, hie, hval]
    simp [h1n, h4n]

theorem option_or_some_or (y : Option ℚ) (e : ℚ) (acc : Option ℚ) :
    (y.or (some e)).or acc = y.or (some e) := by
  cases y <;> rfl

/-- The foldl computing the last enqueued-modified time, started from
any accumulator, yields the trace's own answer when the trace has one
and the accumulator otherwise. -/
theorem lastEnqModFrom_eq (p : Nat) :
    ∀ (out : List (HEvent × Bool)) (acc : Option ℚ),
      lastEnqModFrom acc out p = (lastEnqMod out p).or acc := by
  intro out
  induction out with
  | nil => intro acc; cases acc <;> rfl
  | cons eb out ih =>
    intro acc
    by_cases hc : eb.2 = true ∧ eb.1.etype = EType.modified ∧ eb.1.profile = p
    · simp only [lastEnqModFrom, lastEnqMod, List.foldl_cons, if_pos hc] at ih ⊢
      rw [ih (some eb.1.time)]
      exact (option_or_some_or _ _ _).symm
    · simp only [lastEnqModFrom, lastEnqMod, List.foldl_cons, if_neg hc] at ih ⊢
      exact ih acc

/-- Unfolding of the last enqueued-modified time over a trace step. -/
theorem lastEnqMod_cons (eb : HEvent × Bool) (out : List (HEvent × Bool)) (p : Nat) :
    lastEnqMod (eb :: out) p =
      if eb.2 = true ∧ eb.1.etype = EType.modified ∧ eb.1.profile = p
      then (lastEnqMod out p).or (some eb.1.time)
      else lastEnqMod out p := by
  by_cases hc : eb.2 = true ∧ eb.1.etype = EType.modified ∧ eb.1.profile = p
  · rw [if_pos hc]
    have : lastEnqMod (eb :: out) p = lastEnqModFrom (some eb.1.time) out p := by
      simp only [lastEnqMod, lastEnqModFrom, List.foldl_cons, if_pos hc]
    rw [this, lastEnqModFrom_eq]
  · rw [if_neg hc]
    simp only [lastEnqMod, lastEnqModFrom, List.foldl_cons, if_neg hc]

/-- Trace-state agreement: after running the handler, the per-profile
last-event-time map holds exactly the time of the profile's last
enqueued file-modified event of the trace, falling back to the starting
map when there is none. -/
theorem runH_state (th : ℚ) (p : Nat) :
    ∀ (es : List HEvent) (st : Nat → Option ℚ),
      (runH th st es).1 p = (lastEnqMod (runH th st es).2 p).or (st p) := by
  intro es
  induction es with
  | nil => intro st; rfl
  | cons e es ih =>
    intro st
    rcases e with ⟨et, ep, t⟩
    cases et with
    | created =>
      simp only [runH, handlerStep]
      rw [ih st, lastEnqMod_cons]
      simp
    | modified =>
      by_cases hs : should_create_new_snapshot (st ep) t th = true
      · by_cases hp : ep = p
        · subst hp
          simp only [runH, handlerStep, if_pos hs]
          rw [ih, lastEnqMod_cons]
          simp [option_or_some_or]
        · simp only [runH, handlerStep, if_pos hs]
          rw [ih, lastEnqMod_cons]
          have hp2 : ¬ p = ep := fun hh => hp hh.symm
          simp [hp, hp2]
      · have hs' : should_create_new_snapshot (st ep) t th = false := by
          revert hs
          cases should_create_new_snapshot (st ep) t th <;> simp
        simp only [runH, handlerStep, hs', Bool.false_eq_true, if_false]
        rw [ih st, lastEnqMod_cons]
        simp

/-- C3 counterexample: with threshold 5, a file-created event for
profile 1 at t=0 (enqueued, as the trace records) followed by a
file-modified event for profile 1 at t=2 refutes the claim as stated:
an event for the profile was previously enqueued only 2 seconds
earlier, yet the modified event is enqueued anyway, because created
events do not update the debounce clock. -/
theorem C3_counterexample :
    ¬ (enqDecision 5 [evCre0] evMod2 = true →
        lastEnqAny (runH 5 (fun _ => none) [evCre0]).2 evMod2.profile = none ∨
        ∃ t, lastEnqAny (runH 5 (fun _ => none) [evCre0]).2 evMod2.profile = some t
          ∧ evMod2.time - t > 5) := by
  intro h
  rcases h rfl with h1 | ⟨t, ht, hgt⟩
  · exact absurd h1 (by decide)
  · have hts : some t = some (0 : ℚ) := by rw [← ht]; rfl
    rw [(Option.some.inj hts)] at hgt
    have : evMod2.time = (2 : ℚ) := rfl
    rw [this] at hgt
    norm_num at hgt

/-- C3 amended: a file-modified event is enqueued iff no file-modified
event for its profile was previously enqueued or the elapsed time since
the profile's last enqueued file-modified event strictly exceeds the
threshold (file-created events are always enqueued but do not advance
the debounce clock); the spec's concrete scenarios hold: two modified
events 2 seconds apart with threshold 5 enqueue one event, 6 seconds
apart enqueue two. -/
theorem C3_producer_debounce :
    (∀ (th : ℚ) (hist : List HEvent) (e : HEvent), e.etype = EType.modified →
        (enqDecision th hist e = true ↔
          lastEnqMod (runH th (fun _ => none) hist).2 e.profile = none ∨
          ∃ t, lastEnqMod (runH th (fun _ => none) hist).2 e.profile = some t
            ∧ e.time - t > th))
  ∧ (∀ (th : ℚ) (hist : List HEvent) (e : HEvent), e.etype = EType.created →
        enqDecision th hist e = true)
  ∧ countEnqueued 5 [evMod0, evMod2] = 1
  ∧ countEnqueued 5 [evMod0, evMod6] = 2 := by
  refine ⟨?_, ?_, ?_, ?_⟩
  · intro th hist e he
    rcases e with ⟨et, ep, t⟩
    cases he
    have hst := runH_state th ep hist (fun _ => none)
    simp only [Option.or_none] at hst
    unfold enqDecision
    simp only [handlerStep]
    cases hl : lastEnqMod (runH th (fun _ => none) hist).2 ep with
    | none =>
      rw [hl] at hst
      simp only [hst]
      constructor
      · intro _; exact Or.inl trivial
      · intro _; simp [should_create_new_snapshot]
    | some u =>
      rw [hl] at hst
      simp only [hst]
      constructor
      · intro hdec
        refine Or.inr ⟨u, rfl, ?_⟩
        by_cases hgt : t - u > th
        · exact hgt
        · exfalso
          have : should_create_new_snapshot (some u) t th = false := by
            simp [should_create_new_snapshot, hgt]
          rw [this] at hdec
          simp at hdec
      · rintro (h1 | ⟨v, hv, hgt⟩)
        · exact absurd h1 (by simp)
        · have huv : u = v := Option.some.inj hv
          subst huv
          have hsc : should_create_new_snapshot (some u) t th = true := by
            simp [should_create_new_snapshot, hgt]
          rw [hsc]
          simp
  · intro th hist e he
    rcases e with ⟨et, ep, t⟩
    cases he
    rfl
  · norm_num [countEnqueued, runH, handlerStep, should_create_new_snapshot, evMod0, evMod2]
  · norm_num [countEnqueued, runH, handlerStep, should_create_new_snapshot, evMod0, evMod6]

/-- C3 witness: the amended claim applied to a fresh handler — a
file-modified event with no history is enqueued. -/
theorem C3_witness : enqDecision 5 [] evMod0 = true :=
  (C3_producer_debounce.1 5 [] evMod0 rfl).mpr (Or.inl rfl)

/-- Per-profile save-file name facts and nodup keys of the discovery
result, given the three name disequalities of the profile. -/
theorem find_profile_files_keys_nodup (sd : Dir) (p : Nat)
    (hnd : (sd.map Prod.fst).Nodup)
    (hmt : mainSaveName p ≠ tempSaveName p)
    (hbm : ((bakPat p).toList).isPrefixOf ((mainSaveName p).toList) = false)
    (hbt : ((bakPat p).toList).isPrefixOf ((tempSaveName p).toList) = false) :
    ((find_profile_files sd p).map Prod.fst).Nodup := by
  have hCnd : ((sd.filter (fun f => ((bakPat p).toList).isPrefixOf f.1.toList)).map
      Prod.fst).Nodup :=
    List.Nodup.sublist (List.Sublist.map Prod.fst (List.filter_sublist sd)) hnd
  have hCmem : ∀ x ∈ (sd.filter (fun f => ((bakPat p).toList).isPrefixOf f.1.toList)).map
      Prod.fst, ((bakPat p).toList).isPrefixOf x.toList = true := by
    intro x hx
    rcases List.mem_map.mp hx with ⟨f, hf, hfx⟩
    rcases List.mem_filter.mp hf with ⟨_, h2⟩
    rw [← hfx]
    exact h2
  have hmC : mainSaveName p ∉ (sd.filter
      (fun f => ((bakPat p).toList).isPrefixOf f.1.toList)).map Prod.fst := by
    intro hx
    rw [hCmem _ hx] at hbm
    exact absurd hbm (by simp)
  have htC : tempSaveName p ∉ (sd.filter
      (fun f => ((bakPat p).toList).isPrefixOf f.1.toList)).map Prod.fst := by
    intro hx
    rw [hCmem _ hx] at hbt
    exact absurd hbt (by simp)
  rcases hm : lookupFile sd (mainSaveName p) with _ | b <;>
    rcases ht : lookupFile sd (tempSaveName p) with _ | c <;>
      simp only [find_profile_files, hm, ht, List.nil_append, List.cons_append,
        List.append_nil, List.map_append, List.map_cons, List.map_nil]
  · exact hCnd
  · exact List.nodup_cons.mpr ⟨htC, hCnd⟩
  · exact List.nodup_cons.mpr ⟨hmC, hCnd⟩
  · refine List.nodup_cons.mpr ⟨?_, List.nodup_cons.mpr ⟨htC, hCnd⟩⟩
    intro hx
    rcases List.mem_cons.mp hx with h1 | h1
    · exact hmt h1
    · exact hmC h1

/-- C4: restoring a snapshot of profile 2 that contains `Profile2.sav`
with backup enabled leaves `save_dir/Profile2.sav` byte-identical to
the snapshot's copy, and the live-backup folder of profile 2 holds the
`Profile2.sav` that was in the save directory immediately before the
restore. -/
theorem C4_restore_postcondition (snapDir : Dir) (st : LiveState) (b b0 : FileContent)
    (hsnapKeys : (snapDir.map Prod.fst).Nodup)
    (hsaveKeys : ((st.save_dir).map Prod.fst).Nodup)
    (hsnap : lookupFile snapDir (mainSaveName 2) = some b)
    (hpre : lookupFile st.save_dir (mainSaveName 2) = some b0)
    (hok : (restore_snapshot snapDir 2 true st).1 = true) :
    lookupFile (restore_snapshot snapDir 2 true st).2.save_dir (mainSaveName 2) = some b ∧
    lookupFile (restore_snapshot snapDir 2 true st).2.live_backup (mainSaveName 2)
      = some b0 := by
  have hmem0 : (mainSaveName 2, b0) ∈ find_profile_files st.save_dir 2 := by
    simp [find_profile_files, hpre]
  have hne0 : (find_profile_files st.save_dir 2).isEmpty = false := by
    rcases hq : find_profile_files st.save_dir 2 with _ | ⟨f, fs⟩
    · rw [hq] at hmem0; simp at hmem0
    · simp [hq]
  have hcurnd : ((find_profile_files st.save_dir 2).map Prod.fst).Nodup :=
    find_profile_files_keys_nodup st.save_dir 2 hsaveKeys (by decide) (by decide) (by decide)
  have hbs : restore_backup_step 2 true st =
      { st with live_backup := (safe_copy_files (find_profile_files st.save_dir 2) []).2 } := by
    simp [restore_backup_step, hne0]
  have hmem1 : (mainSaveName 2, b) ∈ snapDir.filter (fun f => isRestoreSave f.1) := by
    refine List.mem_filter.mpr ⟨lookupFile_mem _ _ _ hsnap, ?_⟩
    show isRestoreSave (mainSaveName 2) = true
    decide
  have hne1 : (snapDir.filter (fun f => isRestoreSave f.1)).isEmpty = false := by
    rcases hq : snapDir.filter (fun f => isRestoreSave f.1) with _ | ⟨f, fs⟩
    · rw [hq] at hmem1; simp at hmem1
    · simp [hq]
  have hsnapnd : ((snapDir.filter (fun f => isRestoreSave f.1)).map Prod.fst).Nodup :=
    List.Nodup.sublist (List.Sublist.map Prod.fst (List.filter_sublist snapDir)) hsnapKeys
  have hcopied : (safe_copy_files (snapDir.filter (fun f => isRestoreSave f.1))
      (restore_backup_step 2 true st).save_dir).1 ≠ 0 := by
    rw [safe_copy_files_count]
    intro hzero
    rw [List.length_eq_zero] at hzero
    rw [hzero] at hmem1
    simp at hmem1
  have hres : restore_snapshot snapDir 2 true st =
      (true, { restore_backup_step 2 true st with
        save_dir := (safe_copy_files (snapDir.filter (fun f => isRestoreSave f.1))
          (restore_backup_step 2 true st).save_dir).2 }) := by
    simp [restore_snapshot, hne1, hcopied]
  rw [hres]
  constructor
  · exact lookupFile_copy_mem _ _ _ _ hsnapnd hmem1
  · show lookupFile (restore_backup_step 2 true st).live_backup (mainSaveName 2) = some b0
    rw [hbs]
    exact lookupFile_copy_mem _ _ _ _ hcurnd hmem0

/-- C4 witness: the restore postcondition at a concrete snapshot and
live state. -/
theorem C4_witness :
    lookupFile (restore_snapshot exSnapDir4 2 true exSt4).2.save_dir (mainSaveName 2)
      = some [1, 2, 3] ∧
    lookupFile (restore_snapshot exSnapDir4 2 true exSt4).2.live_backup (mainSaveName 2)
      = some [7, 7] :=
  C4_restore_postcondition exSnapDir4 exSt4 ([1, 2, 3]) ([7, 7])
    (by decide) (by decide) (by decide) (by decide) (by decide)

/-- C9: restoring with backup requested while the save directory holds
no files of the snapshot's profile leaves the profile's live-backup
folder untouched, and the restore of the snapshot's files still
proceeds. -/
theorem C9_stale_backup_preserved (snapDir : Dir) (st : LiveState) (p : Nat)
    (hnone : find_profile_files st.save_dir p = [])
    (hne : (snapDir.filter (fun f => isRestoreSave f.1)).isEmpty = false) :
    (restore_snapshot snapDir p true st).1 = true ∧
    (restore_snapshot snapDir p true st).2.live_backup = st.live_backup := by
  have hbs : restore_backup_step p true st = st := by
    simp [restore_backup_step, hnone]
  have hcopied : (safe_copy_files (snapDir.filter (fun f => isRestoreSave f.1))
      (restore_backup_step p true st).save_dir).1 ≠ 0 := by
    rw [safe_copy_files_count]
    intro hzero
    rw [List.length_eq_zero] at hzero
    rw [hzero] at hne
    simp at hne
  rw [hbs] at hcopied
  simp [restore_snapshot, hne, hcopied, hbs]

/-- C9 witness: the frame property at a concrete stale backup. -/
theorem C9_witness :
    (restore_snapshot exSnapDir9 1 true exSt9).1 = true ∧
    (restore_snapshot exSnapDir9 1 true exSt9).2.live_backup = exSt9.live_backup :=
  C9_stale_backup_preserved exSnapDir9 exSt9 1 (by decide) (by decide)

/-- C8: capture and restore use asymmetric filters — every file
matching `Profile{P}.sav.bak*` is part of `create_snapshot`'s save-file
discovery, yet a numbered backup `Profile{P}.sav.bak2` never passes
`restore_snapshot`'s filter, so a restore never writes it back to the
save directory. -/
theorem C8_capture_restore_asymmetry :
    (∀ (d : Dir) (p : Nat) (n : String) (c : FileContent),
        (n, c) ∈ d → ((bakPat p).toList).isPrefixOf n.toList = true →
        (n, c) ∈ find_profile_files d p)
  ∧ (∀ p : Nat, 1 ≤ p → p ≤ 4 →
        ((bakPat p).toList).isPrefixOf ((bakName2 p).toList) = true ∧
        isRestoreSave (bakName2 p) = false)
  ∧ (∀ (p : Nat) (snapDir : Dir) (bc : Bool) (st : LiveState), 1 ≤ p → p ≤ 4 →
        lookupFile (restore_snapshot snapDir p bc st).2.save_dir (bakName2 p) =
        lookupFile st.save_dir (bakName2 p)) := by
  refine ⟨?_, ?_, ?_⟩
  · intro d p n c hmem hpref
    unfold find_profile_files
    exact List.mem_append.mpr (Or.inr (List.mem_filter.mpr ⟨hmem, hpref⟩))
  · intro p h1 h4
    interval_cases p <;> exact ⟨by decide, by decide⟩
  · intro p snapDir bc st h1 h4
    have hns : isRestoreSave (bakName2 p) = false := by
      interval_cases p <;> decide
    have hkeys : (bakName2 p) ∉ (snapDir.filter (fun f => isRestoreSave f.1)).map
        Prod.fst := by
      intro hx
      rcases List.mem_map.mp hx with ⟨f, hf, hfx⟩
      rcases List.mem_filter.mp hf with ⟨_, h2⟩
      rw [hfx, hns] at h2
      exact absurd h2 (by simp)
    have hsd : (restore_backup_step p bc st).save_dir = st.save_dir := by
      unfold restore_backup_step
      split_ifs <;> rfl
    simp only [restore_snapshot]
    split_ifs with hA hB
    · exact congrArg (fun d => lookupFile d (bakName2 p)) hsd
    · exact congrArg (fun d => lookupFile d (bakName2 p)) hsd
    · show lookupFile (safe_copy_files _ _).2 _ = _
      rw [lookupFile_copy_not_mem _ _ _ hkeys, hsd]

theorem mem_insertDesc (s a : Snapshot) : ∀ l : List Snapshot,
    a ∈ insertDesc s l ↔ a = s ∨ a ∈ l := by
  intro l
  induction l with
  | nil => simp [insertDesc]
  | cons t ts ih =>
    simp only [insertDesc]
    by_cases hc : t.timestamp ≤ s.timestamp
    · rw [if_pos hc]
      simp [List.mem_cons]
    · rw [if_neg hc]
      simp only [List.mem_cons, ih]
      tauto

theorem mem_sortByTimestampDesc (a : Snapshot) : ∀ l : List Snapshot,
    a ∈ sortByTimestampDesc l ↔ a ∈ l := by
  intro l
  induction l with
  | nil => simp [sortByTimestampDesc]
  | cons x xs ih =>
    simp only [sortByTimestampDesc, List.foldr_cons] at ih ⊢
    rw [mem_insertDesc, ih, List.mem_cons]

theorem insertDesc_head_of_max (s : Snapshot) :
    ∀ m : List Snapshot, (∀ y ∈ m, y.timestamp ≤ s.timestamp) →
      (insertDesc s m).head? = some s := by
  intro m
  cases m with
  | nil => intro _; rfl
  | cons t ts =>
    intro h
    simp only [insertDesc]
    rw [if_pos (h t (by simp))]
    rfl

theorem sortDesc_head_of_max : ∀ (l : List Snapshot) (x : Snapshot),
    x ∈ l → (∀ y ∈ l, y.timestamp ≤ x.timestamp) →
    (∀ y ∈ l, y.timestamp = x.timestamp → y = x) →
    (sortByTimestampDesc l).head? = some x := by
  intro l
  induction l with
  | nil => intro x hx _ _; simp at hx
  | cons a l ih =>
    intro x hx hle huniq
    by_cases hax : a = x
    · subst hax
      simp only [sortByTimestampDesc, List.foldr_cons]
      apply insertDesc_head_of_max
      intro y hy
      exact hle y (List.mem_cons_of_mem _ ((mem_sortByTimestampDesc y l).mp hy))
    · have hxl : x ∈ l := by
        rcases List.mem_cons.mp hx with h1 | h1
        · exact absurd h1.symm hax
        · exact h1
      have hlex : a.timestamp ≤ x.timestamp := hle a (by simp)
      have hne : a.timestamp ≠ x.timestamp := fun he => hax (huniq a (by simp) he)
      have ihx := ih x hxl (fun y hy => hle y (List.mem_cons_of_mem _ hy))
        (fun y hy he => huniq y (List.mem_cons_of_mem _ hy) he)
      simp only [sortByTimestampDesc, List.foldr_cons]
      rcases hsort : sortByTimestampDesc l with _ | ⟨h0, rest⟩
      · rw [hsort] at ihx
        simp at ihx
      · have hh0 : h0 = x := by
          rw [hsort] at ihx
          simpa using ihx
        subst hh0
        rw [show List.foldr insertDesc [] l = sortByTimestampDesc l from rfl, hsort]
        simp only [insertDesc]
        rw [if_neg (fun hcon => hne (le_antisymm hlex hcon))]
        rfl

theorem buildSnapshot_path (f : SnapFolder) (s : Snapshot)
    (h : buildSnapshot f = some s) : s.path = f.name := by
  unfold buildSnapshot at h
  rcases hm : f.metadata with _ | m
  · rw [hm] at h
    rcases hp : parse_snapshot_folder_name f.name with _ | r
    · rw [hp] at h
      simp at h
    · rw [hp] at h
      rw [← Option.some.inj h]
  · rw [hm] at h
    rw [← Option.some.inj h]

theorem upsert_mem_self : ∀ (cat : List SnapFolder) (target : String) (nf : SnapFolder),
    target ∈ cat.map SnapFolder.name → nf ∈ upsertFolder cat target nf := by
  intro cat
  induction cat with
  | nil => intro target nf h; simp at h
  | cons f fs ih =>
    intro target nf h
    by_cases hf : f.name = target
    · simp [upsertFolder, hf]
    · simp only [upsertFolder, if_neg hf]
      simp only [List.map_cons, List.mem_cons] at h
      rcases h with h1 | h1
      · exact absurd h1.symm hf
      · exact List.mem_cons_of_mem _ (ih target nf h1)

theorem upsert_mem_sub : ∀ (cat : List SnapFolder) (target : String) (nf a : SnapFolder),
    a ∈ upsertFolder cat target nf → a = nf ∨ a ∈ cat := by
  intro cat
  induction cat with
  | nil =>
    intro target nf a h
    simp [upsertFolder] at h
    exact Or.inl h
  | cons f fs ih =>
    intro target nf a h
    by_cases hf : f.name = target
    · rw [upsertFolder, if_pos hf] at h
      rcases List.mem_cons.mp h with h1 | h1
      · exact Or.inl h1
      · exact Or.inr (List.mem_cons_of_mem _ h1)
    · rw [upsertFolder, if_neg hf] at h
      rcases List.mem_cons.mp h with h1 | h1
      · refine Or.inr ?_
        rw [h1]
        exact List.mem_cons_self _ _
      · rcases ih target nf a h1 with h2 | h2
        · exact Or.inl h2
        · exact Or.inr (List.mem_cons_of_mem _ h2)

theorem upsert_build_mem (cat : List SnapFolder) (target : String) (nf : SnapFolder)
    (s : Snapshot) (h : target ∈ cat.map SnapFolder.name)
    (hb : buildSnapshot nf = some s) :
    s ∈ buildSnapshots (upsertFolder cat target nf) :=
  List.mem_filterMap.mpr ⟨nf, upsert_mem_self cat target nf h, hb⟩

theorem upsert_build_sub (cat : List SnapFolder) (target : String) (nf : SnapFolder)
    (s : Snapshot) (h : s ∈ buildSnapshots (upsertFolder cat target nf)) :
    buildSnapshot nf = some s ∨ s ∈ buildSnapshots cat := by
  rcases List.mem_filterMap.mp h with ⟨a, ha, hba⟩
  rcases upsert_mem_sub cat target nf a ha with h1 | h1
  · rw [h1] at hba
    exact Or.inl hba
  · exact Or.inr (List.mem_filterMap.mpr ⟨a, h1, hba⟩)

theorem list_snapshots_some (st : MgrState) (p : Nat) :
    list_snapshots st (some p) = sortByTimestampDesc (buildSnapshots (st.catalog p)) := by
  simp [list_snapshots, profileDirsFor]

/-- C8 witness: the asymmetry at profile 2 — the numbered backup is
captured by the discovery, fails the restore filter, and a restore
leaves the save directory's copy of it untouched. -/
theorem C8_witness :
    (bakName2 2, [4, 4]) ∈ find_profile_files exDir8 2 ∧
    isRestoreSave (bakName2 2) = false ∧
    lookupFile (restore_snapshot exSnapDir8 2 true exSt8).2.save_dir (bakName2 2) =
      lookupFile exSt8.save_dir (bakName2 2) :=
  ⟨C8_capture_restore_asymmetry.1 exDir8 2 (bakName2 2) ([4, 4]) (by decide) (by decide),
   (C8_capture_restore_asymmetry.2.1 2 (by decide) (by decide)).2,
   C8_capture_restore_asymmetry.2.2 2 exSnapDir8 true exSt8 (by decide) (by decide)⟩

/-- C10: a successful `create_snapshot` with `overwrite_last = true`
that targets an existing snapshot folder writes a metadata timestamp
equal to the overwrite-time clock reading (not the folder's original
creation time), returns a snapshot carrying that timestamp, advances
the per-profile last-snapshot-time to it, and — with every prior
timestamp in the catalog older than the clock reading — the overwritten
snapshot sorts as the newest entry of its profile in `list_snapshots`. -/
theorem C10_overwrite_advances_timestamp (st : MgrState) (p : Nat)
    (tsFlag sOk : Bool) (now : DateTime) (nowTs : ℚ) (s0 : Snapshot)
    (hprior : (list_snapshots st (some p)).head? = some s0)
    (hsave : (find_profile_files st.save_dir p).isEmpty = false)
    (hlt : ∀ s ∈ list_snapshots st (some p), s.timestamp < nowTs) :
    ∃ snap, (create_snapshot st p tsFlag true now nowTs sOk).1 = some snap ∧
      snap.timestamp = nowTs ∧ snap.path = s0.path ∧
      (create_snapshot st p tsFlag true now nowTs sOk).2.last_snapshot_time p
        = some nowTs ∧
      (∃ f ∈ (create_snapshot st p tsFlag true now nowTs sOk).2.catalog p,
          f.name = s0.path ∧ ∃ m, f.metadata = some m ∧ m.timestamp = nowTs) ∧
      (list_snapshots (create_snapshot st p tsFlag true now nowTs sOk).2 (some p)).head?
        = some snap := by
  have hs0mem : s0 ∈ list_snapshots st (some p) := by
    rcases hl : list_snapshots st (some p) with _ | ⟨a, rest⟩
    · rw [hl] at hprior; simp at hprior
    · rw [hl] at hprior
      have ha : a = s0 := by simpa using hprior
      rw [ha]
      exact List.mem_cons_self _ _
  have hs0build : s0 ∈ buildSnapshots (st.catalog p) := by
    rw [list_snapshots_some] at hs0mem
    exact (mem_sortByTimestampDesc s0 _).mp hs0mem
  obtain ⟨f0, hf0mem, hf0b⟩ := List.mem_filterMap.mp hs0build
  have htarget : s0.path ∈ (st.catalog p).map SnapFolder.name := by
    rw [buildSnapshot_path f0 s0 hf0b]
    exact List.mem_map_of_mem _ hf0mem
  have hlen : (safe_copy_files (find_profile_files st.save_dir p)
      (findFolder (st.catalog p) s0.path).files).1 ≠ 0 := by
    rw [safe_copy_files_count]
    intro hz
    rw [List.length_eq_zero] at hz
    rw [hz] at hsave
    simp at hsave
  simp only [create_snapshot, hsave, Bool.false_eq_true, if_false, if_true, ite_true,
    ite_false, eq_self_iff_true, hprior, hlen]
  set F1 : SnapFolder :=
    ⟨s0.path,
     (safe_copy_files (find_profile_files st.save_dir p)
       (findFolder (st.catalog p) s0.path).files).2,
     some ⟨p, nowTs,
       (safe_copy_files (find_profile_files st.save_dir p)
         (findFolder (st.catalog p) s0.path).files).1, tsFlag && sOk⟩,
     if (tsFlag && sOk) = true then true
     else (findFolder (st.catalog p) s0.path).hasPng⟩ with hF1
  refine ⟨⟨s0.path, p, nowTs, folderSize F1, tsFlag && sOk⟩, rfl, rfl, rfl, trivial,
    ?_, ?_⟩
  · exact ⟨F1, upsert_mem_self (st.catalog p) s0.path F1 htarget, rfl, _, rfl, rfl⟩
  · rw [list_snapshots_some]
    simp only [eq_self_iff_true, if_true, ite_true]
    apply sortDesc_head_of_max
    · exact upsert_build_mem _ _ _ _ htarget rfl
    · intro y hy
      rcases upsert_build_sub _ _ _ _ hy with h1 | h1
      · rw [show y = ⟨s0.path, p, nowTs, folderSize F1, tsFlag && sOk⟩ from
          (Option.some.inj h1).symm]
      · have hyl : y ∈ list_snapshots st (some p) := by
          rw [list_snapshots_some]
          exact (mem_sortByTimestampDesc y _).mpr h1
        exact le_of_lt (hlt y hyl)
    · intro y hy hts
      rcases upsert_build_sub _ _ _ _ hy with h1 | h1
      · exact (Option.some.inj h1).symm
      · have hyl : y ∈ list_snapshots st (some p) := by
          rw [list_snapshots_some]
          exact (mem_sortByTimestampDesc y _).mpr h1
        exact absurd hts (ne_of_lt (hlt y hyl))

/-- C10 witness: the overwrite scenario at a concrete one-snapshot
catalog — overwriting at time 100 a snapshot recorded at time 50. -/
theorem C10_witness :
    ∃ snap, (create_snapshot exMgr10 1 false true exDT10 100 false).1 = some snap ∧
      snap.timestamp = 100 ∧ snap.path = exSnap0.path ∧
      (create_snapshot exMgr10 1 false true exDT10 100 false).2.last_snapshot_time 1
        = some 100 ∧
      (∃ f ∈ (create_snapshot exMgr10 1 false true exDT10 100 false).2.catalog 1,
          f.name = exSnap0.path ∧ ∃ m, f.metadata = some m ∧ m.timestamp = 100) ∧
      (list_snapshots (create_snapshot exMgr10 1 false true exDT10 100 false).2
        (some 1)).head? = some snap :=
  C10_overwrite_advances_timestamp exMgr10 1 false false exDT10 100 exSnap0
    (by decide) (by decide) (by decide)
